import Mathlib

/-!
Shallow embedding of `CFD Finite Volume.py`: a 2-D compressible isothermal
Euler solver on a periodic N×N grid (MUSCL-Hancock predictor, Rusanov flux,
conservative update, CFL timestep with output snapping).

Fields are `Fin N → Fin N → ℝ`; the first index is the numpy row (axis 0,
the code's `aY`), the second the column (axis 1, the code's `aX`).
`np.roll(f, -1, axis)` (the code's shift `R`) maps entry `(i,j)` to the
entry one step further along that axis, indices wrapping modulo `N`.
-/

namespace CFD

/-- An `N × N` grid of real values, indexed `(row, column)` like a numpy
array; reals stand in for the script's floating-point numbers. -/
abbrev Field (N : ℕ) : Type := Fin N → Fin N → ℝ

variable {N : ℕ}

/-- `np.roll(f, R, axis=aX)` with `R = -1`, `aX = 1`: entry `(i,j)` becomes
`f i (j+1)`, the column index wrapping modulo `N`. -/
def rollXR [NeZero N] (f : Field N) : Field N := fun i j => f i (j + 1)

/-- `np.roll(f, L, axis=aX)` with `L = 1`, `aX = 1`: entry `(i,j)` becomes
`f i (j-1)`, the column index wrapping modulo `N`. -/
def rollXL [NeZero N] (f : Field N) : Field N := fun i j => f i (j - 1)

/-- `np.roll(f, R, axis=aY)` with `R = -1`, `aY = 0`: entry `(i,j)` becomes
`f (i+1) j`, the row index wrapping modulo `N`. -/
def rollYR [NeZero N] (f : Field N) : Field N := fun i j => f (i + 1) j

/-- `np.roll(f, L, axis=aY)` with `L = 1`, `aY = 0`: entry `(i,j)` becomes
`f (i-1) j`, the row index wrapping modulo `N`. -/
def rollYL [NeZero N] (f : Field N) : Field N := fun i j => f (i - 1) j

/-- `conserved_variables(rho, vx, vy, V)` from the source: mass `rho*V`,
x-momentum `rho*V*vx`, y-momentum `rho*V*vy`, elementwise. -/
def conserved_variables (rho vx vy : Field N) (V : ℝ) :
    Field N × Field N × Field N :=
  (fun i j => rho i j * V,
   fun i j => rho i j * V * vx i j,
   fun i j => rho i j * V * vy i j)

/-- `primitive_variables(m, px, py, V)` from the source: density `m/V`,
x-velocity `px/rho/V`, y-velocity `py/rho/V`, elementwise. -/
noncomputable def primitive_variables (m px py : Field N) (V : ℝ) :
    Field N × Field N × Field N :=
  (fun i j => m i j / V,
   fun i j => px i j / (m i j / V) / V,
   fun i j => py i j / (m i j / V) / V)

/-- `grad(f, dx)` from the source: periodic central differences,
`f_dx = (roll(f,R,aX) - roll(f,L,aX)) / (2 dx)` and
`f_dy = (roll(f,R,aY) - roll(f,L,aY)) / (2 dx)`. -/
noncomputable def grad [NeZero N] (f : Field N) (dx : ℝ) : Field N × Field N :=
  (fun i j => (rollXR f i j - rollXL f i j) / (2 * dx),
   fun i j => (rollYR f i j - rollYL f i j) / (2 * dx))

/-- `extrapolate(f, f_dx, f_dy, dx)` from the source: face values
`f_XL = roll(f - f_dx*dx/2, R, aX)`, `f_XR = f + f_dx*dx/2`,
`f_YL = roll(f - f_dy*dx/2, R, aY)`, `f_YR = f + f_dy*dx/2`,
returned in that order. -/
noncomputable def extrapolate [NeZero N] (f f_dx f_dy : Field N) (dx : ℝ) :
    Field N × Field N × Field N × Field N :=
  (rollXR (fun i j => f i j - f_dx i j * dx / 2),
   fun i j => f i j + f_dx i j * dx / 2,
   rollYR (fun i j => f i j - f_dy i j * dx / 2),
   fun i j => f i j + f_dy i j * dx / 2)

/-- `apply_flux(F, flux_F_X, flux_F_Y, dx, dt)` from the source:
`F - dt*dx*flux_F_X + dt*dx*roll(flux_F_X,L,aX)
   - dt*dx*flux_F_Y + dt*dx*roll(flux_F_Y,L,aY)`. -/
def apply_flux [NeZero N] (F flux_F_X flux_F_Y : Field N) (dx dt : ℝ) :
    Field N :=
  fun i j =>
    F i j - dt * dx * flux_F_X i j + dt * dx * rollXL flux_F_X i j
      - dt * dx * flux_F_Y i j + dt * dx * rollYL flux_F_Y i j

/-- `get_flux(rho_L, rho_R, vx_L, vx_R, vy_L, vy_R)` from the source: the
local Lax-Friedrichs/Rusanov flux between two face states, with the first
velocity pair in the normal role. Returns
`(flux_Mass, flux_Momx, flux_Momy)`. -/
noncomputable def get_flux (rho_L rho_R vx_L vx_R vy_L vy_R : Field N) :
    Field N × Field N × Field N :=
  let rho_star : Field N := fun i j => 0.5 * (rho_L i j + rho_R i j)
  let momx_star : Field N :=
    fun i j => 0.5 * (rho_L i j * vx_L i j + rho_R i j * vx_R i j)
  let momy_star : Field N :=
    fun i j => 0.5 * (rho_L i j * vy_L i j + rho_R i j * vy_R i j)
  let P_star := rho_star
  let C : Field N :=
    fun i j => max (1 + |vx_L i j|) (1 + |vx_R i j|)
  (fun i j => momx_star i j - C i j * 0.5 * (rho_L i j - rho_R i j),
   fun i j => momx_star i j ^ 2 / rho_star i j + P_star i j
     - C i j * 0.5 * (rho_L i j * vx_L i j - rho_R i j * vx_R i j),
   fun i j => momx_star i j * momy_star i j / rho_star i j
     - C i j * 0.5 * (rho_L i j * vy_L i j - rho_R i j * vy_R i j))

/-- Rusanov flux at a single interface exactly as the spec words it (§4.4):
star state, base flux, signal speed `C = max(1+|vnL|, 1+|vnR|)`, diffusive
correction. Stated per scalar pair of left/right states, for comparison
with `get_flux`. -/
noncomputable def rusanovSpec (rhoL rhoR vnL vnR vtL vtR : ℝ) : ℝ × ℝ × ℝ :=
  let rhoStar := 0.5 * (rhoL + rhoR)
  let momnStar := 0.5 * (rhoL * vnL + rhoR * vnR)
  let momtStar := 0.5 * (rhoL * vtL + rhoR * vtR)
  let PStar := rhoStar
  let C := max (1 + |vnL|) (1 + |vnR|)
  (momnStar - C * 0.5 * (rhoL - rhoR),
   momnStar ^ 2 / rhoStar + PStar - C * 0.5 * (rhoL * vnL - rhoR * vnR),
   momnStar * momtStar / rhoStar - C * 0.5 * (rhoL * vtL - rhoR * vtR))

/-- Sum of a field over all cells of the grid. -/
def gridSum (f : Field N) : ℝ := ∑ i : Fin N, ∑ j : Fin N, f i j

/-- Index one step forward modulo `N`, as the spec's `neighbor(i,+1)`. -/
def neighborP [NeZero N] (i : Fin N) : Fin N :=
  ⟨(i.val + 1) % N, Nat.mod_lt _ (Nat.pos_of_ne_zero (NeZero.ne N))⟩

/-- Index one step backward modulo `N`, as the spec's `neighbor(i,-1)`. -/
def neighborM [NeZero N] (i : Fin N) : Fin N :=
  ⟨(i.val + (N - 1)) % N, Nat.mod_lt _ (Nat.pos_of_ne_zero (NeZero.ne N))⟩

/-- The half-timestep predictor for density from the main loop:
`rho - 0.5*dt*( vx*rho_dx + rho*vx_dx + vy*rho_dy + rho*vy_dy )`. -/
def predictRho (dt : ℝ) (rho vx vy rho_dx vx_dx rho_dy vy_dy : Field N) :
    Field N :=
  fun i j =>
    rho i j - 0.5 * dt * (vx i j * rho_dx i j + rho i j * vx_dx i j
      + vy i j * rho_dy i j + rho i j * vy_dy i j)

/-- The half-timestep predictor for x-velocity from the main loop:
`vx - 0.5*dt*( vx*vx_dx + vy*vx_dy + (1/rho)*P_dx )`. -/
noncomputable def predictVx (dt : ℝ) (rho vx vy vx_dx vx_dy P_dx : Field N) : Field N :=
  fun i j =>
    vx i j - 0.5 * dt * (vx i j * vx_dx i j + vy i j * vx_dy i j
      + (1 / rho i j) * P_dx i j)

/-- The half-timestep predictor for y-velocity from the main loop:
`vy - 0.5*dt*( vx*vy_dx + vy*vy_dy + (1/rho)*P_dy )`. -/
noncomputable def predictVy (dt : ℝ) (rho vx vy vy_dx vy_dy P_dy : Field N) : Field N :=
  fun i j =>
    vy i j - 0.5 * dt * (vx i j * vy_dx i j + vy i j * vy_dy i j
      + (1 / rho i j) * P_dy i j)

/-- One step's field update from the main loop, given the primitive fields,
the conserved fields and the (already snapped) timestep: gradients, the
half-step predictor (with `P_dx = rho_dx`, `P_dy = rho_dy`), face
extrapolation, the two axis-swapped `get_flux` calls, and the conservative
`apply_flux` updates.  Returns the new `(Mass, Momx, Momy)`. -/
noncomputable def stepFields [NeZero N] (dx dt : ℝ)
    (rho vx vy Mass Momx Momy : Field N) :
    Field N × Field N × Field N :=
  let gR := grad rho dx
  let gX := grad vx dx
  let gY := grad vy dx
  let rho_prime := predictRho dt rho vx vy gR.1 gX.1 gR.2 gY.2
  let vx_prime := predictVx dt rho vx vy gX.1 gX.2 gR.1
  let vy_prime := predictVy dt rho vx vy gY.1 gY.2 gR.2
  let eR := extrapolate rho_prime gR.1 gR.2 dx
  let eX := extrapolate vx_prime gX.1 gX.2 dx
  let eY := extrapolate vy_prime gY.1 gY.2 dx
  let fx := get_flux eR.1 eR.2.1 eX.1 eX.2.1 eY.1 eY.2.1
  let fy := get_flux eR.2.2.1 eR.2.2.2 eY.2.2.1 eY.2.2.2 eX.2.2.1 eX.2.2.2
  (apply_flux Mass fx.1 fy.1 dx dt,
   apply_flux Momx fx.2.1 fy.2.2 dx dt,
   apply_flux Momy fx.2.2 fy.2.1 dx dt)

/-- CFL timestep from the main loop:
`dt = courant_fac * min( dx / (1 + sqrt(vx^2 + vy^2)) )`, the minimum
running over all cells of the grid. -/
noncomputable def dtRaw [NeZero N] (courant_fac dx : ℝ)
    (vx vy : Field N) : ℝ :=
  courant_fac * Finset.univ.inf'
    (by
      have hN : 0 < N := Nat.pos_of_ne_zero (NeZero.ne N)
      have : Nonempty (Fin N) := ⟨⟨0, hN⟩⟩
      exact Finset.univ_nonempty)
    (fun p : Fin N × Fin N =>
      dx / (1 + Real.sqrt (vx p.1 p.2 ^ 2 + vy p.1 p.2 ^ 2)))

/-- Maximum over all cells of the local speed `sqrt(vx^2 + vy^2)`. -/
noncomputable def maxSpeed [NeZero N] (vx vy : Field N) : ℝ :=
  Finset.univ.sup'
    (by
      have hN : 0 < N := Nat.pos_of_ne_zero (NeZero.ne N)
      have : Nonempty (Fin N) := ⟨⟨0, hN⟩⟩
      exact Finset.univ_nonempty)
    (fun p : Fin N × Fin N => Real.sqrt (vx p.1 p.2 ^ 2 + vy p.1 p.2 ^ 2))

/-- Output snapping from the main loop, over any linear ordered field so
that concrete runs can be evaluated: if `t + dt` would pass the next
unreached output target `outputCount * tEnd / Nout`, the timestep is
truncated to land exactly on the target and the output-due flag
(`plotThisTurn`) is raised; otherwise the timestep and flag are unchanged. -/
def snapStep {K : Type} [LinearOrderedField K] (tEnd : K) (Nout : ℕ)
    (t : K) (outputCount : ℕ) (dt0 : K) : K × Bool :=
  if t + dt0 > (outputCount : K) * tEnd / (Nout : K) then
    ((outputCount : K) * tEnd / (Nout : K) - t, true)
  else (dt0, false)

/-- The times at which the output-due signal fires along a run of the
time-state machine: each list entry is one loop iteration's raw CFL
timestep (abstracting the field-dependent CFL value), and each iteration
applies `snapStep`, advances `t`, and increments `outputCount` exactly on
output-due steps, as the main loop does. -/
def runFires {K : Type} [LinearOrderedField K] (tEnd : K) (Nout : ℕ) :
    List K → K → ℕ → List K
  | [], _, _ => []
  | dt0 :: rest, t, oc =>
    let sn := snapStep tEnd Nout t oc dt0
    if sn.2 then (t + sn.1) :: runFires tEnd Nout rest (t + sn.1) (oc + 1)
    else runFires tEnd Nout rest (t + sn.1) oc

/-- The mutable state of the simulation main loop: the three conserved
fields, the current time `t`, and the output counter `outputCount`. -/
structure SimState (N : ℕ) where
  Mass : Field N
  Momx : Field N
  Momy : Field N
  t : ℝ
  outputCount : ℕ

/-- One iteration of the simulation main loop: recover primitives with
`vol = dx^2`, compute the CFL timestep, snap it to the next output target,
update the conserved fields with `stepFields`, advance `t`, and increment
`outputCount` exactly when the output-due flag fired. -/
noncomputable def loopStep [NeZero N] (courant_fac dx tEnd : ℝ)
    (Nout : ℕ) (s : SimState N) : SimState N :=
  let vol := dx ^ 2
  let prim := primitive_variables s.Mass s.Momx s.Momy vol
  let dt0 := dtRaw courant_fac dx prim.2.1 prim.2.2
  let sn := snapStep tEnd Nout s.t s.outputCount dt0
  let f := stepFields dx sn.1 prim.1 prim.2.1 prim.2.2 s.Mass s.Momx s.Momy
  ⟨f.1, f.2.1, f.2.2, s.t + sn.1,
    if sn.2 then s.outputCount + 1 else s.outputCount⟩

/-- The uniform state `rho = 1`, `vx = 0`, `vy = 0` converted to conserved
variables with cell volume `dx^2`, at time `t0` with output counter `oc0`. -/
def uniformInit (N : ℕ) (dx t0 : ℝ) (oc0 : ℕ) : SimState N :=
  let c := conserved_variables (N := N)
    (fun _ _ => 1) (fun _ _ => 0) (fun _ _ => 0) (dx ^ 2)
  ⟨c.1, c.2.1, c.2.2, t0, oc0⟩

/-- Shift every conserved field of a state by the same cyclic translation,
leaving time and output counter unchanged. -/
def shiftState (τ : Field N → Field N) (s : SimState N) : SimState N :=
  ⟨τ s.Mass, τ s.Momx, τ s.Momy, s.t, s.outputCount⟩

/-- Configuration rejection marker.  Modelled from the spec: the script
hardcodes its parameters (`N = 100`, `Lbox = 1.0`, `courant_fac = 0.5`,
`tEnd = 1/sqrt 3`, `Nout = 100`) and contains no construction-time
validation, so the spec's `ConfigurationError` is modelled from §7's
words. -/
inductive ConfigurationError where
  | invalid : ConfigurationError

/-- Construction-time configuration record (spec §6): resolution `N`,
domain length `L`, CFL factor `courantFactor`, end time `tEnd`, output
count `Nout`. -/
structure Config where
  N : ℤ
  L : ℝ
  courantFactor : ℝ
  tEnd : ℝ
  Nout : ℤ

/-- Modelled from the spec: eager construction-time validation (§6, §7),
absent from the script, which hardcodes valid parameters.  Construction is
rejected with a `ConfigurationError` when `N ≤ 0`, `L ≤ 0`,
`courantFactor ∉ (0,1]`, `tEnd ≤ 0`, or `Nout ≤ 0`; otherwise the
configuration value is produced, before any stepping begins. -/
noncomputable def mkConfig (N : ℤ) (L courantFactor tEnd : ℝ)
    (Nout : ℤ) : Except ConfigurationError Config :=
  if N ≤ 0 then .error .invalid
  else if L ≤ 0 then .error .invalid
  else if courantFactor ≤ 0 ∨ 1 < courantFactor then .error .invalid
  else if tEnd ≤ 0 then .error .invalid
  else if Nout ≤ 0 then .error .invalid
  else .ok ⟨N, L, courantFactor, tEnd, Nout⟩

/-- The x- and y-velocity fields the loop recovers from the conserved state
at the start of a step (`vol = dx^2`). -/
noncomputable def stepVxy [NeZero N] (dx : ℝ) (s : SimState N) :
    Field N × Field N :=
  ((primitive_variables s.Mass s.Momx s.Momy (dx ^ 2)).2.1,
   (primitive_variables s.Mass s.Momx s.Momy (dx ^ 2)).2.2)

/-- The raw CFL timestep the loop computes for a state. -/
noncomputable def stepDtRaw [NeZero N] (courant_fac dx : ℝ)
    (s : SimState N) : ℝ :=
  dtRaw courant_fac dx (stepVxy dx s).1 (stepVxy dx s).2

/-- The snapped timestep and output-due flag the loop computes for a
state. -/
noncomputable def stepSnap [NeZero N] (courant_fac dx tEnd : ℝ)
    (Nout : ℕ) (s : SimState N) : ℝ × Bool :=
  snapStep tEnd Nout s.t s.outputCount (stepDtRaw courant_fac dx s)

/-- The constant field of ones on the 1×1 grid, used as a concrete input. -/
def oneF : Field 1 := fun _ _ => 1

/-- Summing a field rolled one column backward over the whole grid gives
the sum of the field itself (reindexing the periodic grid). -/
theorem gridSum_rollXL [NeZero N] (f : Field N) :
    gridSum (rollXL f) = gridSum f := by
  unfold gridSum rollXL
  refine Finset.sum_congr rfl fun i _ => ?_
  exact Equiv.sum_comp (Equiv.subRight (1 : Fin N)) (f i)

/-- Summing a field rolled one row backward over the whole grid gives the
sum of the field itself (reindexing the periodic grid). -/
theorem gridSum_rollYL [NeZero N] (f : Field N) :
    gridSum (rollYL f) = gridSum f := by
  unfold gridSum rollYL
  exact Equiv.sum_comp (Equiv.subRight (1 : Fin N)) (fun i => ∑ j, f i j)

/-- The conservative update telescopes: `apply_flux` leaves the sum of the
conserved field over the whole grid unchanged. -/
theorem gridSum_apply_flux [NeZero N] (F fX fY : Field N) (dx dt : ℝ) :
    gridSum (apply_flux F fX fY dx dt) = gridSum F := by
  have expand : gridSum (apply_flux F fX fY dx dt)
      = gridSum F - dt * dx * gridSum fX + dt * dx * gridSum (rollXL fX)
        - dt * dx * gridSum fY + dt * dx * gridSum (rollYL fY) := by
    unfold gridSum apply_flux
    simp only [Finset.sum_sub_distrib, Finset.sum_add_distrib,
      ← Finset.mul_sum]
  rw [expand, gridSum_rollXL, gridSum_rollYL]
  ring

/-- C1: for every conserved state `(Mass, Momx, Momy)` and every pair of
flux arrays for each field, one `apply_flux` update with periodic wrap
leaves the sum over all cells of mass, of x-momentum, and of y-momentum
unchanged: the per-cell contributions telescope to zero over the grid. -/
theorem step_conserves_totals [NeZero N]
    (Mass Momx Momy fMX fMY fxX fxY fyX fyY : Field N) (dx dt : ℝ) :
    gridSum (apply_flux Mass fMX fMY dx dt) = gridSum Mass
    ∧ gridSum (apply_flux Momx fxX fxY dx dt) = gridSum Momx
    ∧ gridSum (apply_flux Momy fyX fyY dx dt) = gridSum Momy :=
  ⟨gridSum_apply_flux Mass fMX fMY dx dt,
   gridSum_apply_flux Momx fxX fxY dx dt,
   gridSum_apply_flux Momy fyX fyY dx dt⟩

/-- Witness for C1 at `N = 2` with concrete fields. -/
theorem step_conserves_totals_witness :
    gridSum (apply_flux (N := 2) (fun _ _ => 1) (fun i j => (i : ℝ) + j)
        (fun i _ => (i : ℝ)) 1 1) = gridSum (N := 2) (fun _ _ => 1)
    ∧ gridSum (apply_flux (N := 2) (fun _ _ => 2) (fun _ j => (j : ℝ))
        (fun _ _ => 3) 1 1) = gridSum (N := 2) (fun _ _ => 2)
    ∧ gridSum (apply_flux (N := 2) (fun _ _ => 0) (fun _ _ => 5)
        (fun i j => (i : ℝ) * j) 1 1) = gridSum (N := 2) (fun _ _ => 0) :=
  step_conserves_totals (fun _ _ => 1) (fun _ _ => 2) (fun _ _ => 0)
    (fun i j => (i : ℝ) + j) (fun i _ => (i : ℝ)) (fun _ j => (j : ℝ))
    (fun _ _ => 3) (fun _ _ => 5) (fun i j => (i : ℝ) * j) 1 1

/-- C5: converting primitives to conserved variables and back is the
identity whenever the density is positive everywhere and the cell volume
is positive. -/
theorem round_trip (rho vx vy : Field N) (V : ℝ)
    (hrho : ∀ i j, 0 < rho i j) (hV : 0 < V) :
    primitive_variables (conserved_variables rho vx vy V).1
      (conserved_variables rho vx vy V).2.1
      (conserved_variables rho vx vy V).2.2 V = (rho, vx, vy) := by
  have hV0 : V ≠ 0 := ne_of_gt hV
  unfold primitive_variables conserved_variables
  refine Prod.ext ?_ (Prod.ext ?_ ?_)
  · funext i j
    show rho i j * V / V = rho i j
    field_simp
  · funext i j
    have h0 : rho i j ≠ 0 := ne_of_gt (hrho i j)
    show rho i j * V * vx i j / (rho i j * V / V) / V = vx i j
    rw [mul_div_cancel_right₀ _ hV0]
    field_simp
  · funext i j
    have h0 : rho i j ≠ 0 := ne_of_gt (hrho i j)
    show rho i j * V * vy i j / (rho i j * V / V) / V = vy i j
    rw [mul_div_cancel_right₀ _ hV0]
    field_simp

/-- Witness for C5 at `N = 1`, `rho = 2`, `vx = 3`, `vy = -1`, `V = 4`. -/
theorem round_trip_witness :
    primitive_variables (N := 1)
      (conserved_variables (fun _ _ => 2) (fun _ _ => 3) (fun _ _ => -1) 4).1
      (conserved_variables (fun _ _ => 2) (fun _ _ => 3) (fun _ _ => -1) 4).2.1
      (conserved_variables (fun _ _ => 2) (fun _ _ => 3) (fun _ _ => -1) 4).2.2
      4 = ((fun _ _ => 2), (fun _ _ => 3), fun _ _ => -1) :=
  round_trip (fun _ _ => 2) (fun _ _ => 3) (fun _ _ => -1) 4
    (fun _ _ => by norm_num) (by norm_num)

/-- C6: on every cell, `get_flux` returns exactly the Rusanov flux of the
spec, with the first velocity pair in the normal role and the second in
the tangential role. -/
theorem get_flux_eq_rusanovSpec (rho_L rho_R vn_L vn_R vt_L vt_R : Field N)
    (i j : Fin N) :
    (get_flux rho_L rho_R vn_L vn_R vt_L vt_R).1 i j
      = (rusanovSpec (rho_L i j) (rho_R i j) (vn_L i j) (vn_R i j)
          (vt_L i j) (vt_R i j)).1
    ∧ (get_flux rho_L rho_R vn_L vn_R vt_L vt_R).2.1 i j
      = (rusanovSpec (rho_L i j) (rho_R i j) (vn_L i j) (vn_R i j)
          (vt_L i j) (vt_R i j)).2.1
    ∧ (get_flux rho_L rho_R vn_L vn_R vt_L vt_R).2.2 i j
      = (rusanovSpec (rho_L i j) (rho_R i j) (vn_L i j) (vn_R i j)
          (vt_L i j) (vt_R i j)).2.2 :=
  ⟨rfl, rfl, rfl⟩

/-- C8: construction-time validation (modelled from the spec, §6/§7)
rejects exactly when `N ≤ 0`, `L ≤ 0`, `courantFactor ∉ (0,1]`,
`tEnd ≤ 0`, or `Nout ≤ 0`, and otherwise produces the configuration;
`mkConfig` is a pure function evaluated before any stepping. -/
theorem mkConfig_rejects (N0 : ℤ) (L cf tE : ℝ) (Nout : ℤ) :
    (mkConfig N0 L cf tE Nout).isOk = false ↔
      N0 ≤ 0 ∨ L ≤ 0 ∨ (cf ≤ 0 ∨ 1 < cf) ∨ tE ≤ 0 ∨ Nout ≤ 0 := by
  unfold mkConfig
  split_ifs with h1 h2 h3 h4 h5 <;> simp_all [Except.isOk, Except.toBool]

/-- C9: the gradient estimator returns the periodic central difference
along each axis independently: the wrapped index arithmetic of the rolls
agrees with the spec's `neighbor(i,±1)`, index `±1` modulo `N`. -/
theorem grad_is_central_difference [NeZero N] (f : Field N) (dx : ℝ)
    (i j : Fin N) :
    (grad f dx).1 i j = (f i (neighborP j) - f i (neighborM j)) / (2 * dx)
    ∧ (grad f dx).2 i j
      = (f (neighborP i) j - f (neighborM i) j) / (2 * dx) := by
  have hplus : ∀ k : Fin N, k + 1 = neighborP k := by
    intro k
    apply Fin.ext
    rw [Fin.val_add, Fin.val_one', neighborP, Nat.add_mod_mod]
  have hminus : ∀ k : Fin N, k - 1 = neighborM k := by
    intro k
    apply Fin.ext
    rw [Fin.sub_def, neighborM]
    rcases eq_or_ne N 1 with h | h
    · subst h
      omega
    · have h2 : 1 < N :=
        lt_of_le_of_ne (Nat.pos_of_ne_zero (NeZero.ne N)) (Ne.symm h)
      simp [Fin.val_one', Nat.mod_eq_of_lt h2, Nat.add_comm]
  constructor
  · show (rollXR f i j - rollXL f i j) / (2 * dx) = _
    rw [rollXR, rollXL]
    simp only [hplus, hminus]
  · show (rollYR f i j - rollYL f i j) / (2 * dx) = _
    rw [rollYR, rollYL]
    simp only [hplus, hminus]

/-- Witness for C9 at `N = 3` with a concrete field and indices. -/
theorem grad_is_central_difference_witness :
    (grad (N := 3) (fun i j => (i : ℝ) + 2 * j) 1).1 0 2
      = ((fun (i j : Fin 3) => (i : ℝ) + 2 * j) 0 (neighborP (N := 3) 2)
          - (fun (i j : Fin 3) => (i : ℝ) + 2 * j) 0 (neighborM (N := 3) 2))
          / (2 * 1)
    ∧ (grad (N := 3) (fun i j => (i : ℝ) + 2 * j) 1).2 0 2
      = ((fun (i j : Fin 3) => (i : ℝ) + 2 * j) (neighborP (N := 3) 0) 2
          - (fun (i j : Fin 3) => (i : ℝ) + 2 * j) (neighborM (N := 3) 0) 2)
          / (2 * 1) :=
  grad_is_central_difference (fun i j => (i : ℝ) + 2 * j) 1 0 2

/-- Unfolding equation of `runFires` on the empty list. -/
theorem runFires_nil {K : Type} [LinearOrderedField K] (tEnd : K)
    (Nout : ℕ) (t : K) (oc : ℕ) : runFires tEnd Nout [] t oc = [] := rfl

/-- Unfolding equation of `runFires` on a cons cell. -/
theorem runFires_cons {K : Type} [LinearOrderedField K] (tEnd : K)
    (Nout : ℕ) (dt0 : K) (rest : List K) (t : K) (oc : ℕ) :
    runFires tEnd Nout (dt0 :: rest) t oc =
      if (snapStep tEnd Nout t oc dt0).2
      then (t + (snapStep tEnd Nout t oc dt0).1) ::
          runFires tEnd Nout rest (t + (snapStep tEnd Nout t oc dt0).1)
            (oc + 1)
      else runFires tEnd Nout rest (t + (snapStep tEnd Nout t oc dt0).1) oc :=
  rfl

/-- C4: output snapping never advances `t` past the next unreached target
`outputCount * tEnd / Nout`; the output-due flag fires exactly when the
raw step would pass the target, in which case the step lands exactly on
the target; and a concrete run of the time-state machine with `tEnd = 1`,
`Nout = 4` fires exactly at the times `0.25, 0.5, 0.75, 1`. -/
theorem output_snapping :
    (∀ (tE t dt0 : ℝ) (Nout oc : ℕ),
        t + (snapStep tE Nout t oc dt0).1 ≤ (oc : ℝ) * tE / (Nout : ℝ)
        ∧ ((snapStep tE Nout t oc dt0).2 = true ↔
            (oc : ℝ) * tE / (Nout : ℝ) < t + dt0)
        ∧ ((snapStep tE Nout t oc dt0).2 = true →
            t + (snapStep tE Nout t oc dt0).1 = (oc : ℝ) * tE / (Nout : ℝ)))
    ∧ runFires (1 : ℚ) 4
        [1 / 10, 1 / 10, 1 / 10, 1 / 10, 1 / 10, 1 / 10,
          1 / 10, 1 / 10, 1 / 10, 1 / 10, 1 / 10, 1 / 10] 0 1
        = [1 / 4, 1 / 2, 3 / 4, 1] := by
  constructor
  · intro tE t dt0 Nout oc
    unfold snapStep
    split_ifs with h
    · dsimp only
      exact ⟨le_of_eq (by ring), by simpa using h, fun _ => by ring⟩
    · push_neg at h
      dsimp only
      refine ⟨h, ?_, fun hc => absurd hc (by simp)⟩
      simpa using not_lt.mpr h
  · norm_num [runFires_cons, runFires_nil, snapStep]

/-- Witness for C4's conditional parts: at `tEnd = 1`, `Nout = 4`,
`t = 0`, `outputCount = 1`, `dt0 = 1`, the step is snapped and lands
exactly on the target `1/4`. -/
theorem output_snapping_witness :
    (snapStep (1 : ℝ) 4 0 1 1).2 = true
    ∧ 0 + (snapStep (1 : ℝ) 4 0 1 1).1 = ((1 : ℕ) : ℝ) * 1 / ((4 : ℕ) : ℝ) := by
  have h := output_snapping.1 1 0 1 4 1
  have hfire : (snapStep (1 : ℝ) 4 0 1 1).2 = true := by
    refine h.2.1.mpr ?_
    norm_num
  exact ⟨hfire, h.2.2 hfire⟩

/-- A minimum of `dx / (1 + s a)` over a nonempty finite index set equals
`dx` over one plus the maximum of `s`, when `dx > 0` and `s ≥ 0`. -/
theorem cfl_inf_eq {α : Type} [Fintype α]
    {H : (Finset.univ : Finset α).Nonempty} {dx : ℝ} {s : α → ℝ}
    (hdx : 0 < dx) (hs : ∀ a, 0 ≤ s a) :
    Finset.univ.inf' H (fun a => dx / (1 + s a))
      = dx / (1 + Finset.univ.sup' H s) := by
  obtain ⟨a0, -, ha0⟩ := Finset.exists_mem_eq_sup' H s
  apply le_antisymm
  · rw [ha0]
    exact Finset.inf'_le _ (Finset.mem_univ a0)
  · apply Finset.le_inf'
    intro b _
    have h1 : s b ≤ Finset.univ.sup' H s :=
      Finset.le_sup' s (Finset.mem_univ b)
    have h2 : (0 : ℝ) < 1 + s b := by linarith [hs b]
    have h3 : (0 : ℝ) < 1 + Finset.univ.sup' H s := by linarith [hs b]
    rw [div_le_div_iff_of_pos_left hdx h3 h2]
    linarith

/-- A maximum over a nonempty finite index set of a nonnegative function
is nonnegative. -/
theorem sup'_nonneg_of {α : Type} [Fintype α]
    {H : (Finset.univ : Finset α).Nonempty} {s : α → ℝ}
    (hs : ∀ a, 0 ≤ s a) : 0 ≤ Finset.univ.sup' H s := by
  obtain ⟨a0, -, ha0⟩ := Finset.exists_mem_eq_sup' H s
  rw [ha0]
  exact hs a0

/-- The maximum cell speed is nonnegative. -/
theorem maxSpeed_nonneg [NeZero N] (vx vy : Field N) :
    0 ≤ maxSpeed vx vy := by
  unfold maxSpeed
  exact sup'_nonneg_of fun p => Real.sqrt_nonneg _

/-- C3: the timestep the loop advances by is the snapped CFL timestep; on
steps that are not output-snapped it equals
`courant_fac * min(dx / (1 + speed))` and satisfies
`dt * (1 + maxSpeed) / dx = courant_fac`; on every step
`dt * (1 + maxSpeed) / dx ≤ courant_fac`. -/
theorem cfl_bound [NeZero N] (courant_fac dx tEnd : ℝ) (Nout : ℕ)
    (s : SimState N) (hdx : 0 < dx) :
    (loopStep courant_fac dx tEnd Nout s).t
        = s.t + (stepSnap courant_fac dx tEnd Nout s).1
    ∧ ((stepSnap courant_fac dx tEnd Nout s).2 = false →
        (stepSnap courant_fac dx tEnd Nout s).1 = stepDtRaw courant_fac dx s
        ∧ stepDtRaw courant_fac dx s
            * (1 + maxSpeed (stepVxy dx s).1 (stepVxy dx s).2) / dx
            = courant_fac)
    ∧ (stepSnap courant_fac dx tEnd Nout s).1
        * (1 + maxSpeed (stepVxy dx s).1 (stepVxy dx s).2) / dx
        ≤ courant_fac := by
  have hM : 0 ≤ maxSpeed (stepVxy dx s).1 (stepVxy dx s).2 :=
    maxSpeed_nonneg _ _
  have hM1 : (0 : ℝ) < 1 + maxSpeed (stepVxy dx s).1 (stepVxy dx s).2 := by
    linarith
  have hkey : stepDtRaw courant_fac dx s
      = courant_fac
        * (dx / (1 + maxSpeed (stepVxy dx s).1 (stepVxy dx s).2)) := by
    unfold stepDtRaw dtRaw maxSpeed
    rw [cfl_inf_eq hdx (fun p => Real.sqrt_nonneg _)]
  have heq : stepDtRaw courant_fac dx s
      * (1 + maxSpeed (stepVxy dx s).1 (stepVxy dx s).2) / dx
      = courant_fac := by
    rw [hkey]
    field_simp
  refine ⟨rfl, fun hf => ⟨?_, heq⟩, ?_⟩
  · unfold stepSnap snapStep at hf ⊢
    split_ifs at hf ⊢ with hc
    · rfl
  · unfold stepSnap snapStep
    split_ifs with hc
    · dsimp only
      have hlt : (s.outputCount : ℝ) * tEnd / (Nout : ℝ) - s.t
          ≤ stepDtRaw courant_fac dx s := by linarith
      refine le_trans ?_ (le_of_eq heq)
      rw [div_le_div_iff₀ hdx hdx]
      exact mul_le_mul_of_nonneg_right
        (mul_le_mul_of_nonneg_right hlt (le_of_lt hM1)) (le_of_lt hdx)
    · dsimp only
      exact le_of_eq heq

/-- Witness for C3 at `N = 1` on the uniform state. -/
theorem cfl_bound_witness :
    (loopStep (N := 1) (1 / 2) 1 1 1 (uniformInit 1 1 0 1)).t
        = (uniformInit 1 1 0 1).t
          + (stepSnap (1 / 2) 1 1 1 (uniformInit 1 1 0 1)).1
    ∧ ((stepSnap (1 / 2) 1 1 1 (uniformInit 1 1 0 1)).2 = false →
        (stepSnap (1 / 2) 1 1 1 (uniformInit 1 1 0 1)).1
            = stepDtRaw (1 / 2) 1 (uniformInit 1 1 0 1)
        ∧ stepDtRaw (1 / 2) 1 (uniformInit 1 1 0 1)
            * (1 + maxSpeed (stepVxy 1 (uniformInit 1 1 0 1)).1
                (stepVxy 1 (uniformInit 1 1 0 1)).2) / 1
            = 1 / 2)
    ∧ (stepSnap (1 / 2) 1 1 1 (uniformInit 1 1 0 1)).1
        * (1 + maxSpeed (stepVxy 1 (uniformInit 1 1 0 1)).1
            (stepVxy 1 (uniformInit 1 1 0 1)).2) / 1
        ≤ 1 / 2 :=
  cfl_bound (1 / 2) 1 1 1 (uniformInit 1 1 0 1) (by norm_num)

/-- C7: in every step the Riemann solver is invoked exactly twice, with
the normal-velocity role swapped: the x-direction call takes the
x-velocity faces in the normal slots and the y-velocity faces in the
tangential slots, and its tangential-momentum output (third component) is
the x-direction flux used to update the y-momentum; the y-direction call
takes the y-velocity faces in the normal slots and the x-velocity faces
in the tangential slots, and its tangential-momentum output is the
y-direction flux used to update the x-momentum. -/
theorem riemann_axis_swap [NeZero N] (dx dt : ℝ)
    (rho vx vy Mass Momx Momy : Field N)
    (eR eX eY : Field N × Field N × Field N × Field N)
    (hR : eR = extrapolate
      (predictRho dt rho vx vy (grad rho dx).1 (grad vx dx).1
        (grad rho dx).2 (grad vy dx).2)
      (grad rho dx).1 (grad rho dx).2 dx)
    (hX : eX = extrapolate
      (predictVx dt rho vx vy (grad vx dx).1 (grad vx dx).2 (grad rho dx).1)
      (grad vx dx).1 (grad vx dx).2 dx)
    (hY : eY = extrapolate
      (predictVy dt rho vx vy (grad vy dx).1 (grad vy dx).2 (grad rho dx).2)
      (grad vy dx).1 (grad vy dx).2 dx) :
    stepFields dx dt rho vx vy Mass Momx Momy
      = (apply_flux Mass
          (get_flux eR.1 eR.2.1 eX.1 eX.2.1 eY.1 eY.2.1).1
          (get_flux eR.2.2.1 eR.2.2.2 eY.2.2.1 eY.2.2.2
            eX.2.2.1 eX.2.2.2).1 dx dt,
         apply_flux Momx
          (get_flux eR.1 eR.2.1 eX.1 eX.2.1 eY.1 eY.2.1).2.1
          (get_flux eR.2.2.1 eR.2.2.2 eY.2.2.1 eY.2.2.2
            eX.2.2.1 eX.2.2.2).2.2 dx dt,
         apply_flux Momy
          (get_flux eR.1 eR.2.1 eX.1 eX.2.1 eY.1 eY.2.1).2.2
          (get_flux eR.2.2.1 eR.2.2.2 eY.2.2.1 eY.2.2.2
            eX.2.2.1 eX.2.2.2).2.1 dx dt) := by
  subst hR hX hY
  rfl

/-- Witness for C7 at `N = 1` on constant fields. -/
theorem riemann_axis_swap_witness :
    stepFields (N := 1) 1 1 oneF oneF oneF oneF oneF oneF
      = (apply_flux oneF
          (get_flux
            (extrapolate
              (predictRho 1 oneF oneF oneF (grad oneF 1).1 (grad oneF 1).1
                (grad oneF 1).2 (grad oneF 1).2)
              (grad oneF 1).1 (grad oneF 1).2 1).1
            (extrapolate
              (predictRho 1 oneF oneF oneF (grad oneF 1).1 (grad oneF 1).1
                (grad oneF 1).2 (grad oneF 1).2)
              (grad oneF 1).1 (grad oneF 1).2 1).2.1
            (extrapolate
              (predictVx 1 oneF oneF oneF (grad oneF 1).1 (grad oneF 1).2
                (grad oneF 1).1)
              (grad oneF 1).1 (grad oneF 1).2 1).1
            (extrapolate
              (predictVx 1 oneF oneF oneF (grad oneF 1).1 (grad oneF 1).2
                (grad oneF 1).1)
              (grad oneF 1).1 (grad oneF 1).2 1).2.1
            (extrapolate
              (predictVy 1 oneF oneF oneF (grad oneF 1).1 (grad oneF 1).2
                (grad oneF 1).2)
              (grad oneF 1).1 (grad oneF 1).2 1).1
            (extrapolate
              (predictVy 1 oneF oneF oneF (grad oneF 1).1 (grad oneF 1).2
                (grad oneF 1).2)
              (grad oneF 1).1 (grad oneF 1).2 1).2.1).1
          (get_flux
            (extrapolate
              (predictRho 1 oneF oneF oneF (grad oneF 1).1 (grad oneF 1).1
                (grad oneF 1).2 (grad oneF 1).2)
              (grad oneF 1).1 (grad oneF 1).2 1).2.2.1
            (extrapolate
              (predictRho 1 oneF oneF oneF (grad oneF 1).1 (grad oneF 1).1
                (grad oneF 1).2 (grad oneF 1).2)
              (grad oneF 1).1 (grad oneF 1).2 1).2.2.2
            (extrapolate
              (predictVy 1 oneF oneF oneF (grad oneF 1).1 (grad oneF 1).2
                (grad oneF 1).2)
              (grad oneF 1).1 (grad oneF 1).2 1).2.2.1
            (extrapolate
              (predictVy 1 oneF oneF oneF (grad oneF 1).1 (grad oneF 1).2
                (grad oneF 1).2)
              (grad oneF 1).1 (grad oneF 1).2 1).2.2.2
            (extrapolate
              (predictVx 1 oneF oneF oneF (grad oneF 1).1 (grad oneF 1).2
                (grad oneF 1).1)
              (grad oneF 1).1 (grad oneF 1).2 1).2.2.1
            (extrapolate
              (predictVx 1 oneF oneF oneF (grad oneF 1).1 (grad oneF 1).2
                (grad oneF 1).1)
              (grad oneF 1).1 (grad oneF 1).2 1).2.2.2).1 1 1,
         apply_flux oneF
          (get_flux
            (extrapolate
              (predictRho 1 oneF oneF oneF (grad oneF 1).1 (grad oneF 1).1
                (grad oneF 1).2 (grad oneF 1).2)
              (grad oneF 1).1 (grad oneF 1).2 1).1
            (extrapolate
              (predictRho 1 oneF oneF oneF (grad oneF 1).1 (grad oneF 1).1
                (grad oneF 1).2 (grad oneF 1).2)
              (grad oneF 1).1 (grad oneF 1).2 1).2.1
            (extrapolate
              (predictVx 1 oneF oneF oneF (grad oneF 1).1 (grad oneF 1).2
                (grad oneF 1).1)
              (grad oneF 1).1 (grad oneF 1).2 1).1
            (extrapolate
              (predictVx 1 oneF oneF oneF (grad oneF 1).1 (grad oneF 1).2
                (grad oneF 1).1)
              (grad oneF 1).1 (grad oneF 1).2 1).2.1
            (extrapolate
              (predictVy 1 oneF oneF oneF (grad oneF 1).1 (grad oneF 1).2
                (grad oneF 1).2)
              (grad oneF 1).1 (grad oneF 1).2 1).1
            (extrapolate
              (predictVy 1 oneF oneF oneF (grad oneF 1).1 (grad oneF 1).2
                (grad oneF 1).2)
              (grad oneF 1).1 (grad oneF 1).2 1).2.1).2.1
          (get_flux
            (extrapolate
              (predictRho 1 oneF oneF oneF (grad oneF 1).1 (grad oneF 1).1
                (grad oneF 1).2 (grad oneF 1).2)
              (grad oneF 1).1 (grad oneF 1).2 1).2.2.1
            (extrapolate
              (predictRho 1 oneF oneF oneF (grad oneF 1).1 (grad oneF 1).1
                (grad oneF 1).2 (grad oneF 1).2)
              (grad oneF 1).1 (grad oneF 1).2 1).2.2.2
            (extrapolate
              (predictVy 1 oneF oneF oneF (grad oneF 1).1 (grad oneF 1).2
                (grad oneF 1).2)
              (grad oneF 1).1 (grad oneF 1).2 1).2.2.1
            (extrapolate
              (predictVy 1 oneF oneF oneF (grad oneF 1).1 (grad oneF 1).2
                (grad oneF 1).2)
              (grad oneF 1).1 (grad oneF 1).2 1).2.2.2
            (extrapolate
              (predictVx 1 oneF oneF oneF (grad oneF 1).1 (grad oneF 1).2
                (grad oneF 1).1)
              (grad oneF 1).1 (grad oneF 1).2 1).2.2.1
            (extrapolate
              (predictVx 1 oneF oneF oneF (grad oneF 1).1 (grad oneF 1).2
                (grad oneF 1).1)
              (grad oneF 1).1 (grad oneF 1).2 1).2.2.2).2.2 1 1,
         apply_flux oneF
          (get_flux
            (extrapolate
              (predictRho 1 oneF oneF oneF (grad oneF 1).1 (grad oneF 1).1
                (grad oneF 1).2 (grad oneF 1).2)
              (grad oneF 1).1 (grad oneF 1).2 1).1
            (extrapolate
              (predictRho 1 oneF oneF oneF (grad oneF 1).1 (grad oneF 1).1
                (grad oneF 1).2 (grad oneF 1).2)
              (grad oneF 1).1 (grad oneF 1).2 1).2.1
            (extrapolate
              (predictVx 1 oneF oneF oneF (grad oneF 1).1 (grad oneF 1).2
                (grad oneF 1).1)
              (grad oneF 1).1 (grad oneF 1).2 1).1
            (extrapolate
              (predictVx 1 oneF oneF oneF (grad oneF 1).1 (grad oneF 1).2
                (grad oneF 1).1)
              (grad oneF 1).1 (grad oneF 1).2 1).2.1
            (extrapolate
              (predictVy 1 oneF oneF oneF (grad oneF 1).1 (grad oneF 1).2
                (grad oneF 1).2)
              (grad oneF 1).1 (grad oneF 1).2 1).1
            (extrapolate
              (predictVy 1 oneF oneF oneF (grad oneF 1).1 (grad oneF 1).2
                (grad oneF 1).2)
              (grad oneF 1).1 (grad oneF 1).2 1).2.1).2.2
          (get_flux
            (extrapolate
              (predictRho 1 oneF oneF oneF (grad oneF 1).1 (grad oneF 1).1
                (grad oneF 1).2 (grad oneF 1).2)
              (grad oneF 1).1 (grad oneF 1).2 1).2.2.1
            (extrapolate
              (predictRho 1 oneF oneF oneF (grad oneF 1).1 (grad oneF 1).1
                (grad oneF 1).2 (grad oneF 1).2)
              (grad oneF 1).1 (grad oneF 1).2 1).2.2.2
            (extrapolate
              (predictVy 1 oneF oneF oneF (grad oneF 1).1 (grad oneF 1).2
                (grad oneF 1).2)
              (grad oneF 1).1 (grad oneF 1).2 1).2.2.1
            (extrapolate
              (predictVy 1 oneF oneF oneF (grad oneF 1).1 (grad oneF 1).2
                (grad oneF 1).2)
              (grad oneF 1).1 (grad oneF 1).2 1).2.2.2
            (extrapolate
              (predictVx 1 oneF oneF oneF (grad oneF 1).1 (grad oneF 1).2
                (grad oneF 1).1)
              (grad oneF 1).1 (grad oneF 1).2 1).2.2.1
            (extrapolate
              (predictVx 1 oneF oneF oneF (grad oneF 1).1 (grad oneF 1).2
                (grad oneF 1).1)
              (grad oneF 1).1 (grad oneF 1).2 1).2.2.2).2.1 1 1) :=
  riemann_axis_swap 1 1 oneF oneF oneF oneF oneF oneF _ _ _ rfl rfl rfl

/-- Primitive recovery on spatially constant conserved fields, by
beta-reduction. -/
theorem primitive_variables_const (A B C V : ℝ) :
    primitive_variables (N := N) (fun _ _ => A) (fun _ _ => B)
        (fun _ _ => C) V
      = ((fun _ _ => A / V), (fun _ _ => B / (A / V) / V),
         fun _ _ => C / (A / V) / V) := rfl

/-- On a spatially uniform state with zero velocity, one field update is
the identity on the conserved fields, for every timestep: all gradients
vanish, the predictor is the identity, both Riemann fluxes are spatially
constant, and the conservative update telescopes pointwise. -/
theorem stepFields_uniform [NeZero N] (dx dt R X Y M Px Py : ℝ)
    (hX : X = 0) (hY : Y = 0) (hPx : Px = 0) (hPy : Py = 0) :
    stepFields (N := N) dx dt (fun _ _ => R) (fun _ _ => X) (fun _ _ => Y)
      (fun _ _ => M) (fun _ _ => Px) (fun _ _ => Py)
      = ((fun _ _ => M), (fun _ _ => Px), fun _ _ => Py) := by
  subst hX hY hPx hPy
  refine Prod.ext ?_ (Prod.ext ?_ ?_) <;> funext i j <;>
    simp only [stepFields, grad, extrapolate, get_flux, apply_flux,
      predictRho, predictVx, predictVy, rollXR, rollXL, rollYR, rollYL] <;>
    ring

/-- The mass field of the uniform initial state is constant `1 * dx^2`. -/
theorem uniformInit_Mass (dx t0 : ℝ) (oc0 : ℕ) :
    (uniformInit N dx t0 oc0).Mass = fun _ _ => 1 * dx ^ 2 := rfl

/-- The x-momentum field of the uniform initial state is constant zero
(in the form `1 * dx^2 * 0` produced by `conserved_variables`). -/
theorem uniformInit_Momx (dx t0 : ℝ) (oc0 : ℕ) :
    (uniformInit N dx t0 oc0).Momx = fun _ _ => 1 * dx ^ 2 * 0 := rfl

/-- The y-momentum field of the uniform initial state is constant zero
(in the form `1 * dx^2 * 0` produced by `conserved_variables`). -/
theorem uniformInit_Momy (dx t0 : ℝ) (oc0 : ℕ) :
    (uniformInit N dx t0 oc0).Momy = fun _ _ => 1 * dx ^ 2 * 0 := rfl

/-- One loop iteration leaves the conserved fields of a uniform state
unchanged. -/
theorem loopStep_uniform [NeZero N] (courant_fac dx tEnd : ℝ) (Nout : ℕ)
    (s : SimState N)
    (hM : s.Mass = fun _ _ => 1 * dx ^ 2)
    (hx : s.Momx = fun _ _ => 1 * dx ^ 2 * 0)
    (hy : s.Momy = fun _ _ => 1 * dx ^ 2 * 0) :
    (loopStep courant_fac dx tEnd Nout s).Mass = s.Mass
    ∧ (loopStep courant_fac dx tEnd Nout s).Momx = s.Momx
    ∧ (loopStep courant_fac dx tEnd Nout s).Momy = s.Momy := by
  have hstep : ∀ dtv : ℝ,
      stepFields dx dtv
        (primitive_variables s.Mass s.Momx s.Momy (dx ^ 2)).1
        (primitive_variables s.Mass s.Momx s.Momy (dx ^ 2)).2.1
        (primitive_variables s.Mass s.Momx s.Momy (dx ^ 2)).2.2
        s.Mass s.Momx s.Momy
      = (s.Mass, s.Momx, s.Momy) := by
    intro dtv
    rw [hM, hx, hy, primitive_variables_const]
    dsimp only
    exact stepFields_uniform dx dtv _ _ _ _ _ _
      (by ring) (by ring) (by ring) (by ring)
  have h := hstep ((snapStep tEnd Nout s.t s.outputCount
    (dtRaw courant_fac dx
      (primitive_variables s.Mass s.Momx s.Momy (dx ^ 2)).2.1
      (primitive_variables s.Mass s.Momx s.Momy (dx ^ 2)).2.2)).1)
  exact ⟨congrArg Prod.fst h, congrArg (fun p => p.2.1) h,
    congrArg (fun p => p.2.2) h⟩

/-- C2: the uniform state with density one and zero velocity everywhere
is a fixed point of the step loop: the conserved fields are unchanged
after any number of simulation steps. -/
theorem uniform_fixed_point [NeZero N] (courant_fac dx tEnd : ℝ)
    (Nout : ℕ) (t0 : ℝ) (oc0 k : ℕ) :
    ((loopStep courant_fac dx tEnd Nout)^[k] (uniformInit N dx t0 oc0)).Mass
        = (uniformInit N dx t0 oc0).Mass
    ∧ ((loopStep courant_fac dx tEnd Nout)^[k]
        (uniformInit N dx t0 oc0)).Momx
        = (uniformInit N dx t0 oc0).Momx
    ∧ ((loopStep courant_fac dx tEnd Nout)^[k]
        (uniformInit N dx t0 oc0)).Momy
        = (uniformInit N dx t0 oc0).Momy := by
  induction k with
  | zero => exact ⟨rfl, rfl, rfl⟩
  | succ n ih =>
    obtain ⟨h1, h2, h3⟩ := ih
    rw [Function.iterate_succ_apply']
    have h := loopStep_uniform courant_fac dx tEnd Nout
      ((loopStep courant_fac dx tEnd Nout)^[n] (uniformInit N dx t0 oc0))
      (h1.trans (uniformInit_Mass dx t0 oc0))
      (h2.trans (uniformInit_Momx dx t0 oc0))
      (h3.trans (uniformInit_Momy dx t0 oc0))
    exact ⟨h.1.trans h1, h.2.1.trans h2, h.2.2.trans h3⟩

/-- Witness for C2 at `N = 1` after three steps. -/
theorem uniform_fixed_point_witness :
    ((loopStep (N := 1) (1 / 2) 1 1 1)^[3] (uniformInit 1 1 0 1)).Mass
        = (uniformInit 1 1 0 1).Mass
    ∧ ((loopStep (N := 1) (1 / 2) 1 1 1)^[3] (uniformInit 1 1 0 1)).Momx
        = (uniformInit 1 1 0 1).Momx
    ∧ ((loopStep (N := 1) (1 / 2) 1 1 1)^[3] (uniformInit 1 1 0 1)).Momy
        = (uniformInit 1 1 0 1).Momy :=
  uniform_fixed_point (1 / 2) 1 1 1 0 1 3

/-- Primitive recovery commutes with the column translation. -/
theorem primitive_variables_rollXR [NeZero N] (m px py : Field N) (V : ℝ) :
    primitive_variables (rollXR m) (rollXR px) (rollXR py) V
      = (rollXR (primitive_variables m px py V).1,
         rollXR (primitive_variables m px py V).2.1,
         rollXR (primitive_variables m px py V).2.2) := rfl

/-- Primitive recovery commutes with the row translation. -/
theorem primitive_variables_rollYR [NeZero N] (m px py : Field N) (V : ℝ) :
    primitive_variables (rollYR m) (rollYR px) (rollYR py) V
      = (rollYR (primitive_variables m px py V).1,
         rollYR (primitive_variables m px py V).2.1,
         rollYR (primitive_variables m px py V).2.2) := rfl

/-- The gradient estimator commutes with the column translation. -/
theorem grad_rollXR [NeZero N] (f : Field N) (dx : ℝ) :
    grad (rollXR f) dx = (rollXR (grad f dx).1, rollXR (grad f dx).2) := by
  unfold grad rollXR rollXL rollYR rollYL
  refine Prod.ext ?_ ?_ <;> funext i j <;> dsimp only <;>
    simp only [sub_add_cancel, add_sub_cancel_right]

/-- The gradient estimator commutes with the row translation. -/
theorem grad_rollYR [NeZero N] (f : Field N) (dx : ℝ) :
    grad (rollYR f) dx = (rollYR (grad f dx).1, rollYR (grad f dx).2) := by
  unfold grad rollXR rollXL rollYR rollYL
  refine Prod.ext ?_ ?_ <;> funext i j <;> dsimp only <;>
    simp only [sub_add_cancel, add_sub_cancel_right]

/-- The density predictor commutes with the column translation. -/
theorem predictRho_rollXR [NeZero N] (dt : ℝ)
    (rho vx vy rho_dx vx_dx rho_dy vy_dy : Field N) :
    predictRho dt (rollXR rho) (rollXR vx) (rollXR vy) (rollXR rho_dx)
      (rollXR vx_dx) (rollXR rho_dy) (rollXR vy_dy)
      = rollXR (predictRho dt rho vx vy rho_dx vx_dx rho_dy vy_dy) := rfl

/-- The density predictor commutes with the row translation. -/
theorem predictRho_rollYR [NeZero N] (dt : ℝ)
    (rho vx vy rho_dx vx_dx rho_dy vy_dy : Field N) :
    predictRho dt (rollYR rho) (rollYR vx) (rollYR vy) (rollYR rho_dx)
      (rollYR vx_dx) (rollYR rho_dy) (rollYR vy_dy)
      = rollYR (predictRho dt rho vx vy rho_dx vx_dx rho_dy vy_dy) := rfl

/-- The x-velocity predictor commutes with the column translation. -/
theorem predictVx_rollXR [NeZero N] (dt : ℝ)
    (rho vx vy vx_dx vx_dy P_dx : Field N) :
    predictVx dt (rollXR rho) (rollXR vx) (rollXR vy) (rollXR vx_dx)
      (rollXR vx_dy) (rollXR P_dx)
      = rollXR (predictVx dt rho vx vy vx_dx vx_dy P_dx) := rfl

/-- The x-velocity predictor commutes with the row translation. -/
theorem predictVx_rollYR [NeZero N] (dt : ℝ)
    (rho vx vy vx_dx vx_dy P_dx : Field N) :
    predictVx dt (rollYR rho) (rollYR vx) (rollYR vy) (rollYR vx_dx)
      (rollYR vx_dy) (rollYR P_dx)
      = rollYR (predictVx dt rho vx vy vx_dx vx_dy P_dx) := rfl

/-- The y-velocity predictor commutes with the column translation. -/
theorem predictVy_rollXR [NeZero N] (dt : ℝ)
    (rho vx vy vy_dx vy_dy P_dy : Field N) :
    predictVy dt (rollXR rho) (rollXR vx) (rollXR vy) (rollXR vy_dx)
      (rollXR vy_dy) (rollXR P_dy)
      = rollXR (predictVy dt rho vx vy vy_dx vy_dy P_dy) := rfl

/-- The y-velocity predictor commutes with the row translation. -/
theorem predictVy_rollYR [NeZero N] (dt : ℝ)
    (rho vx vy vy_dx vy_dy P_dy : Field N) :
    predictVy dt (rollYR rho) (rollYR vx) (rollYR vy) (rollYR vy_dx)
      (rollYR vy_dy) (rollYR P_dy)
      = rollYR (predictVy dt rho vx vy vy_dx vy_dy P_dy) := rfl

/-- Face extrapolation commutes with the column translation. -/
theorem extrapolate_rollXR [NeZero N] (f f_dx f_dy : Field N) (dx : ℝ) :
    extrapolate (rollXR f) (rollXR f_dx) (rollXR f_dy) dx
      = (rollXR (extrapolate f f_dx f_dy dx).1,
         rollXR (extrapolate f f_dx f_dy dx).2.1,
         rollXR (extrapolate f f_dx f_dy dx).2.2.1,
         rollXR (extrapolate f f_dx f_dy dx).2.2.2) := rfl

/-- Face extrapolation commutes with the row translation. -/
theorem extrapolate_rollYR [NeZero N] (f f_dx f_dy : Field N) (dx : ℝ) :
    extrapolate (rollYR f) (rollYR f_dx) (rollYR f_dy) dx
      = (rollYR (extrapolate f f_dx f_dy dx).1,
         rollYR (extrapolate f f_dx f_dy dx).2.1,
         rollYR (extrapolate f f_dx f_dy dx).2.2.1,
         rollYR (extrapolate f f_dx f_dy dx).2.2.2) := rfl

/-- The Riemann solver is pointwise, so it commutes with the column
translation. -/
theorem get_flux_rollXR [NeZero N] (a b c d e f : Field N) :
    get_flux (rollXR a) (rollXR b) (rollXR c) (rollXR d) (rollXR e)
        (rollXR f)
      = (rollXR (get_flux a b c d e f).1,
         rollXR (get_flux a b c d e f).2.1,
         rollXR (get_flux a b c d e f).2.2) := rfl

/-- The Riemann solver is pointwise, so it commutes with the row
translation. -/
theorem get_flux_rollYR [NeZero N] (a b c d e f : Field N) :
    get_flux (rollYR a) (rollYR b) (rollYR c) (rollYR d) (rollYR e)
        (rollYR f)
      = (rollYR (get_flux a b c d e f).1,
         rollYR (get_flux a b c d e f).2.1,
         rollYR (get_flux a b c d e f).2.2) := rfl

/-- The conservative update commutes with the column translation. -/
theorem apply_flux_rollXR [NeZero N] (F fX fY : Field N) (dx dt : ℝ) :
    apply_flux (rollXR F) (rollXR fX) (rollXR fY) dx dt
      = rollXR (apply_flux F fX fY dx dt) := by
  funext i j
  unfold apply_flux rollXR rollXL rollYL
  dsimp only
  simp only [sub_add_cancel, add_sub_cancel_right]

/-- The conservative update commutes with the row translation. -/
theorem apply_flux_rollYR [NeZero N] (F fX fY : Field N) (dx dt : ℝ) :
    apply_flux (rollYR F) (rollYR fX) (rollYR fY) dx dt
      = rollYR (apply_flux F fX fY dx dt) := by
  funext i j
  unfold apply_flux rollYR rollXL rollYL
  dsimp only
  simp only [sub_add_cancel, add_sub_cancel_right]

/-- A minimum over all elements of a finite type is invariant under
reindexing by a bijection. -/
theorem inf'_reindex {α : Type} [Fintype α]
    {H : (Finset.univ : Finset α).Nonempty} (e : α ≃ α) (g : α → ℝ) :
    Finset.univ.inf' H (fun a => g (e a)) = Finset.univ.inf' H g := by
  apply le_antisymm
  · apply Finset.le_inf'
    intro b _
    have h := Finset.inf'_le (fun a => g (e a))
      (Finset.mem_univ (e.symm b))
    simpa using h
  · apply Finset.le_inf'
    intro b _
    exact Finset.inf'_le g (Finset.mem_univ (e b))

/-- The CFL minimum is invariant under the column translation of both
velocity fields. -/
theorem dtRaw_rollXR [NeZero N] (courant_fac dx : ℝ) (vx vy : Field N) :
    dtRaw courant_fac dx (rollXR vx) (rollXR vy)
      = dtRaw courant_fac dx vx vy := by
  unfold dtRaw rollXR
  congr 1
  exact inf'_reindex
    (Equiv.prodCongr (Equiv.refl (Fin N)) (Equiv.addRight (1 : Fin N)))
    (fun p : Fin N × Fin N =>
      dx / (1 + Real.sqrt (vx p.1 p.2 ^ 2 + vy p.1 p.2 ^ 2)))

/-- The CFL minimum is invariant under the row translation of both
velocity fields. -/
theorem dtRaw_rollYR [NeZero N] (courant_fac dx : ℝ) (vx vy : Field N) :
    dtRaw courant_fac dx (rollYR vx) (rollYR vy)
      = dtRaw courant_fac dx vx vy := by
  unfold dtRaw rollYR
  congr 1
  exact inf'_reindex
    (Equiv.prodCongr (Equiv.addRight (1 : Fin N)) (Equiv.refl (Fin N)))
    (fun p : Fin N × Fin N =>
      dx / (1 + Real.sqrt (vx p.1 p.2 ^ 2 + vy p.1 p.2 ^ 2)))

/-- The whole field update commutes with the column translation. -/
theorem stepFields_rollXR [NeZero N] (dx dt : ℝ)
    (rho vx vy Mass Momx Momy : Field N) :
    stepFields dx dt (rollXR rho) (rollXR vx) (rollXR vy) (rollXR Mass)
        (rollXR Momx) (rollXR Momy)
      = (rollXR (stepFields dx dt rho vx vy Mass Momx Momy).1,
         rollXR (stepFields dx dt rho vx vy Mass Momx Momy).2.1,
         rollXR (stepFields dx dt rho vx vy Mass Momx Momy).2.2) := by
  simp only [stepFields, grad_rollXR, predictRho_rollXR, predictVx_rollXR,
    predictVy_rollXR, extrapolate_rollXR, get_flux_rollXR, apply_flux_rollXR]

/-- The whole field update commutes with the row translation. -/
theorem stepFields_rollYR [NeZero N] (dx dt : ℝ)
    (rho vx vy Mass Momx Momy : Field N) :
    stepFields dx dt (rollYR rho) (rollYR vx) (rollYR vy) (rollYR Mass)
        (rollYR Momx) (rollYR Momy)
      = (rollYR (stepFields dx dt rho vx vy Mass Momx Momy).1,
         rollYR (stepFields dx dt rho vx vy Mass Momx Momy).2.1,
         rollYR (stepFields dx dt rho vx vy Mass Momx Momy).2.2) := by
  simp only [stepFields, grad_rollYR, predictRho_rollYR, predictVx_rollYR,
    predictVy_rollYR, extrapolate_rollYR, get_flux_rollYR, apply_flux_rollYR]

/-- C10: one full simulation step commutes with the cyclic translation of
the grid by one cell along either axis: shifting all conserved fields and
stepping equals stepping and then shifting, because every operation is
elementwise or a periodic roll and the CFL min-reduction is
shift-invariant. -/
theorem step_translation_equivariant [NeZero N]
    (courant_fac dx tEnd : ℝ) (Nout : ℕ) (s : SimState N) :
    loopStep courant_fac dx tEnd Nout (shiftState rollXR s)
        = shiftState rollXR (loopStep courant_fac dx tEnd Nout s)
    ∧ loopStep courant_fac dx tEnd Nout (shiftState rollYR s)
        = shiftState rollYR (loopStep courant_fac dx tEnd Nout s) := by
  constructor
  · simp only [loopStep, shiftState, primitive_variables_rollXR,
      dtRaw_rollXR, stepFields_rollXR]
  · simp only [loopStep, shiftState, primitive_variables_rollYR,
      dtRaw_rollYR, stepFields_rollYR]

/-- Witness for C10 at `N = 2` on the uniform state. -/
theorem step_translation_equivariant_witness :
    loopStep (N := 2) (1 / 2) 1 1 1 (shiftState rollXR (uniformInit 2 1 0 1))
        = shiftState rollXR (loopStep (1 / 2) 1 1 1 (uniformInit 2 1 0 1))
    ∧ loopStep (N := 2) (1 / 2) 1 1 1
        (shiftState rollYR (uniformInit 2 1 0 1))
        = shiftState rollYR (loopStep (1 / 2) 1 1 1 (uniformInit 2 1 0 1)) :=
  step_translation_equivariant (1 / 2) 1 1 1 (uniformInit 2 1 0 1)

end CFD
